import Mathlib

set_option maxRecDepth 400000

/-!
Verification of `blockchain.py`: a shallow embedding of its data model and
operations, followed by theorems settling the specified properties.

Modelling conventions:
* Python `int` values become `Nat` (indices, proofs) or `Int` (transaction
  amounts); machine-width arithmetic inside SHA-256 is `Nat` reduced modulo
  `2^32` explicitly.
* `time()` returns a float whose only observable use is its `json.dumps`
  rendering inside the hashed serialization; a block's `timestamp` is
  therefore modelled as the `String` that `json.dumps` renders for it, and
  every operation that reads the clock takes that string as an input.
* Python `None` becomes `Option.none`; operations that can raise
  (`IndexError` on `chain[-1]` / `chain[0]`) return `Option`.
* The unbounded `while` loop of `proof_of_work` is modelled with explicit
  fuel; `searchFrom fuel c lp lh = some p` says the loop, started at
  candidate `c`, terminates with `p` within `fuel` iterations.
-/

namespace BC

/-! ## SHA-256 (FIPS 180-4), bytes as `Nat < 256`, words as `Nat < 2^32` -/

/-- Right-rotation of a 32-bit word `x < 2^32` by `n ≤ 32` bits. -/
def rotr (n x : Nat) : Nat := x / 2 ^ n + x % 2 ^ n * 2 ^ (32 - n)

/-- `Ch(x,y,z)` of FIPS 180-4 (complement taken inside 32 bits). -/
def ch (x y z : Nat) : Nat := (x &&& y) ^^^ ((x ^^^ 4294967295) &&& z)

/-- `Maj(x,y,z)` of FIPS 180-4. -/
def maj (x y z : Nat) : Nat := (x &&& y) ^^^ (x &&& z) ^^^ (y &&& z)

/-- `Σ₀`. -/
def bsig0 (x : Nat) : Nat := rotr 2 x ^^^ rotr 13 x ^^^ rotr 22 x

/-- `Σ₁`. -/
def bsig1 (x : Nat) : Nat := rotr 6 x ^^^ rotr 11 x ^^^ rotr 25 x

/-- `σ₀`. -/
def ssig0 (x : Nat) : Nat := rotr 7 x ^^^ rotr 18 x ^^^ x / 8

/-- `σ₁`. -/
def ssig1 (x : Nat) : Nat := rotr 17 x ^^^ rotr 19 x ^^^ x / 1024

/-- The eight working registers of the compression function. -/
structure Regs where
  a : Nat
  b : Nat
  c : Nat
  d : Nat
  e : Nat
  f : Nat
  g : Nat
  h : Nat
deriving DecidableEq, Repr

/-- Initial hash value `H⁽⁰⁾` of SHA-256 (FIPS 180-4 §5.3.3, here written
in decimal). -/
def iv : Regs :=
  ⟨1779033703, 3144134277, 1013904242, 2773480762,
   1359893119, 2600822924, 528734635, 1541459225⟩

/-- The 64 round constants `K₀ … K₆₃` (FIPS 180-4 §4.2.2, in decimal). -/
def kconst : List Nat :=
  [1116352408, 1899447441, 3049323471, 3921009573, 961987163, 1508970993,
   2453635748, 2870763221, 3624381080, 310598401, 607225278, 1426881987,
   1925078388, 2162078206, 2614888103, 3248222580, 3835390401, 4022224774,
   264347078, 604807628, 770255983, 1249150122, 1555081692, 1996064986,
   2554220882, 2821834349, 2952996808, 3210313671, 3336571891, 3584528711,
   113926993, 338241895, 666307205, 773529912, 1294757372, 1396182291,
   1695183700, 1986661051, 2177026350, 2456956037, 2730485921, 2820302411,
   3259730800, 3345764771, 3516065817, 3600352804, 4094571909, 275423344,
   430227734, 506948616, 659060556, 883997877, 958139571, 1322822218,
   1537002063, 1747873779, 1955562222, 2024104815, 2227730452, 2361852424,
   2428436474, 2756734187, 3204031479, 3329325298]

/-- Pack consecutive groups of four bytes into big-endian 32-bit words. -/
def bytesToWords : List Nat → List Nat
  | b0 :: b1 :: b2 :: b3 :: rest =>
      (b0 * 16777216 + b1 * 65536 + b2 * 256 + b3) :: bytesToWords rest
  | _ => []

/-- Extend the message schedule by `n` words; `revw` holds the schedule so
far, newest word first. -/
def extendW : Nat → List Nat → List Nat
  | 0, revw => revw
  | n + 1, revw =>
      extendW n
        (((ssig1 (revw.getD 1 0) + revw.getD 6 0 + ssig0 (revw.getD 14 0) +
            revw.getD 15 0) % 4294967296) :: revw)

/-- The 64-word message schedule of a 64-byte chunk. -/
def schedule (chunk : List Nat) : List Nat :=
  (extendW 48 (bytesToWords chunk).reverse).reverse

/-- One round of the compression function with round constant `kt` and
schedule word `wt`. -/
def roundStep (kt wt : Nat) (s : Regs) : Regs :=
  let t1 := (s.h + bsig1 s.e + ch s.e s.f s.g + kt + wt) % 4294967296
  let t2 := (bsig0 s.a + maj s.a s.b s.c) % 4294967296
  ⟨(t1 + t2) % 4294967296, s.a, s.b, s.c, (s.d + t1) % 4294967296, s.e, s.f, s.g⟩

/-- Run the rounds over the zipped `(Kₜ, Wₜ)` list. -/
def rounds : List (Nat × Nat) → Regs → Regs
  | [], s => s
  | (kt, wt) :: rest, s => rounds rest (roundStep kt wt s)

/-- Compress one 64-byte chunk into the running hash state. -/
def compress (st : Regs) (chunk : List Nat) : Regs :=
  let s := rounds (kconst.zip (schedule chunk)) st
  ⟨(st.a + s.a) % 4294967296, (st.b + s.b) % 4294967296,
   (st.c + s.c) % 4294967296, (st.d + s.d) % 4294967296,
   (st.e + s.e) % 4294967296, (st.f + s.f) % 4294967296,
   (st.g + s.g) % 4294967296, (st.h + s.h) % 4294967296⟩

/-- Process `n` chunks of 64 bytes off the front of `bytes`. -/
def processChunks : Nat → Regs → List Nat → Regs
  | 0, st, _ => st
  | n + 1, st, bytes => processChunks n (compress st (bytes.take 64)) (bytes.drop 64)

/-- The 8-byte big-endian rendering of the 64-bit message bit length. -/
def lenBytes (n : Nat) : List Nat :=
  [n / 72057594037927936 % 256, n / 281474976710656 % 256,
   n / 1099511627776 % 256, n / 4294967296 % 256,
   n / 16777216 % 256, n / 65536 % 256, n / 256 % 256, n % 256]

/-- SHA-256 padding: `0x80`, zeros to 56 mod 64, then the bit length. -/
def padMessage (msg : List Nat) : List Nat :=
  msg ++ 128 :: List.replicate ((119 - msg.length % 64) % 64) 0 ++
    lenBytes (msg.length * 8)

/-- The big-endian bytes of one 32-bit word. -/
def wordBytes (w : Nat) : List Nat :=
  [w / 16777216 % 256, w / 65536 % 256, w / 256 % 256, w % 256]

/-- The 32 digest bytes of a final state. -/
def digestBytes (s : Regs) : List Nat :=
  wordBytes s.a ++ wordBytes s.b ++ wordBytes s.c ++ wordBytes s.d ++
  wordBytes s.e ++ wordBytes s.f ++ wordBytes s.g ++ wordBytes s.h

/-- SHA-256 digest of a byte list, as 32 bytes. -/
def sha256 (msg : List Nat) : List Nat :=
  let padded := padMessage msg
  digestBytes (processChunks (padded.length / 64) iv padded)

/-- A hex digit as a character, lowercase: `0`–`9` then `a`–`f`. -/
def hexDigitChar (n : Nat) : Char :=
  Char.ofNat (if n < 10 then 48 + n else 87 + n)

/-- Two lowercase hex characters of a byte. -/
def byteHex (b : Nat) : List Char := [hexDigitChar (b / 16), hexDigitChar (b % 16)]

/-- Lowercase hex rendering of a byte list. -/
def bytesHex (bs : List Nat) : List Char := bs.flatMap byteHex

/-- `hashlib.sha256(msg).hexdigest()`: the digest as a lowercase hex string. -/
def sha256hex (msg : List Nat) : String := ⟨bytesHex (sha256 msg)⟩

/-- UTF-8 encoding of one code point. -/
def utf8Bytes (c : Nat) : List Nat :=
  if c < 128 then [c]
  else if c < 2048 then [192 + c / 64, 128 + c % 64]
  else if c < 65536 then [224 + c / 4096, 128 + c / 64 % 64, 128 + c % 64]
  else [240 + c / 262144, 128 + c / 4096 % 64, 128 + c / 64 % 64, 128 + c % 64]

/-- `str.encode()`: UTF-8 bytes of a string. -/
def strBytes (s : String) : List Nat := s.data.flatMap (fun c => utf8Bytes c.toNat)

/-! ## Data model

`Transaction` and `Block` are the dictionaries built by `new_transaction`
and `new_block`; `Blockchain` is the mutable state of the Python class
(`self.current_transactions`, `self.chain`). -/

/-- A transaction dictionary: `{'sender': …, 'recipient': …, 'amount': …}`. -/
structure Tx where
  sender : String
  recipient : String
  amount : Int
deriving DecidableEq, Repr

/-- A block dictionary as built by `new_block`.  `timestamp` is the string
`json.dumps` renders for the float returned by `time()` (the float itself is
only ever observed through this rendering).  `current_hash` is `none` while
the block is being hashed and `some …` once stored. -/
structure Block where
  index : Nat
  timestamp : String
  transactions : List Tx
  proof : Nat
  previous_hash : String
  current_hash : Option String
deriving DecidableEq, Repr

/-- The state of the `Blockchain` class. -/
structure Blockchain where
  current_transactions : List Tx
  chain : List Block
deriving DecidableEq, Repr

/-! ## `json.dumps(block, sort_keys=True)`

Python renders with separators `", "` and `": "`, keys sorted
lexicographically, `ensure_ascii=True` string escaping. -/

/-- Four lowercase hex characters of a code unit, for `\uXXXX` escapes. -/
def hex4 (n : Nat) : List Char :=
  [hexDigitChar (n / 4096 % 16), hexDigitChar (n / 256 % 16),
   hexDigitChar (n / 16 % 16), hexDigitChar (n % 16)]

/-- Python `json.dumps` escaping (`ensure_ascii=True`) of one character:
short escapes for the two specials and the five C0 controls that have them,
`\uXXXX` for remaining controls and all non-ASCII (surrogate pairs beyond
the BMP), everything else verbatim. -/
def jsonEscapeChar (c : Char) : List Char :=
  let n := c.toNat
  if n = 34 then [Char.ofNat 92, Char.ofNat 34]
  else if n = 92 then [Char.ofNat 92, Char.ofNat 92]
  else if n = 8 then [Char.ofNat 92, 'b']
  else if n = 9 then [Char.ofNat 92, 't']
  else if n = 10 then [Char.ofNat 92, 'n']
  else if n = 12 then [Char.ofNat 92, 'f']
  else if n = 13 then [Char.ofNat 92, 'r']
  else if n < 32 then Char.ofNat 92 :: 'u' :: hex4 n
  else if n < 127 then [c]
  else if n < 65536 then Char.ofNat 92 :: 'u' :: hex4 n
  else
    (Char.ofNat 92 :: 'u' :: hex4 (55296 + (n - 65536) / 1024)) ++
      (Char.ofNat 92 :: 'u' :: hex4 (56320 + (n - 65536) % 1024))

/-- A JSON string literal, Python style. -/
def jsonStr (s : String) : String :=
  "\"" ++ String.mk (s.data.flatMap jsonEscapeChar) ++ "\""

/-- `None` renders as `null`, a string as its literal. -/
def jsonOptStr : Option String → String
  | none => "null"
  | some s => jsonStr s

/-- A JSON array given the rendered items. -/
def jsonArr (items : List String) : String :=
  "[" ++ String.intercalate ", " items ++ "]"

/-- One transaction dictionary, keys sorted: `amount, recipient, sender`. -/
def txJson (t : Tx) : String :=
  "\x7b\"amount\": " ++ t.amount.repr ++ ", \"recipient\": " ++
    jsonStr t.recipient ++ ", \"sender\": " ++ jsonStr t.sender ++ "\x7d"

/-- One block dictionary, keys sorted: `current_hash, index, previous_hash,
proof, timestamp, transactions`.  The timestamp string is inserted as the
JSON number it renders. -/
def blockJson (b : Block) : String :=
  "\x7b\"current_hash\": " ++ jsonOptStr b.current_hash ++
    ", \"index\": " ++ b.index.repr ++
    ", \"previous_hash\": " ++ jsonStr b.previous_hash ++
    ", \"proof\": " ++ b.proof.repr ++
    ", \"timestamp\": " ++ b.timestamp ++
    ", \"transactions\": " ++ jsonArr (b.transactions.map txJson) ++ "\x7d"

/-! ## The operations of `blockchain.py` -/

/-- `Blockchain.hash`: SHA-256 hex digest of
`json.dumps(block, sort_keys=True).encode()`.  Note that the serialization
includes whatever currently stands in the `current_hash` field. -/
def hash (b : Block) : String := sha256hex (strBytes (blockJson b))

/-- `Blockchain.valid_proof`: does
`sha256(f'{last_proof}{proof}{last_hash}')` start with `"00"`? -/
def valid_proof (last_proof proof : Nat) (last_hash : String) : Bool :=
  let guess := last_proof.repr ++ proof.repr ++ last_hash
  (sha256hex (strBytes guess)).data.take 2 == ['0', '0']

/-- The `while not valid_proof: proof += 1` loop of `proof_of_work`, with
explicit fuel; `cand` is the current candidate. -/
def searchFrom : Nat → Nat → Nat → String → Option Nat
  | 0, _, _, _ => none
  | fuel + 1, cand, lp, lh =>
      if valid_proof lp cand lh then some cand
      else searchFrom fuel (cand + 1) lp lh

/-- `Blockchain.proof_of_work`: seeds the search with the last block's
`proof` and `self.hash(last_block)`, and scans candidates from 0. -/
def proof_of_work (fuel : Nat) (last_block : Block) : Option Nat :=
  searchFrom fuel 0 last_block.proof (hash last_block)

/-- The expression `previous_hash or self.hash(self.chain[-1])` of
`new_block`: a truthy (non-empty) string is used as given, otherwise the
last block is hashed; `none` is the `IndexError` on an empty chain. -/
def resolvePrev (bc : Blockchain) : Option String → Option String
  | some s => if s = "" then (bc.chain.getLast?).map hash else some s
  | none => (bc.chain.getLast?).map hash

/-- `Blockchain.new_block`: builds the block dictionary with
`current_hash = None`, stores `current_hash = hash(block)`, resets
`current_transactions` and appends the block.  `none` models the
`IndexError` of `self.chain[-1]` on an empty chain (reached only when
`previous_hash` is falsy, i.e. absent or the empty string). -/
def new_block (bc : Blockchain) (t : String) (proof : Nat)
    (previous_hash : Option String) : Option (Blockchain × Block) :=
  match resolvePrev bc previous_hash with
  | none => none
  | some ph =>
    let b0 : Block := ⟨bc.chain.length + 1, t, bc.current_transactions, proof, ph, none⟩
    let b : Block := { b0 with current_hash := some (hash b0) }
    some (⟨[], bc.chain ++ [b]⟩, b)

/-- `Blockchain.__init__`: empty buffers, then the genesis call
`new_block(previous_hash='1', proof=100)` at clock reading `t`. -/
def init (t : String) : Option Blockchain :=
  (new_block ⟨[], []⟩ t 100 (some "1")).map Prod.fst

/-- The genesis block the constructor builds at clock reading `t`. -/
def genesisBlock (t : String) : Block :=
  ⟨1, t, [], 100, "1", some (hash ⟨1, t, [], 100, "1", none⟩)⟩

/-- The state of a ledger freshly constructed at clock reading `t`. -/
def genesisState (t : String) : Blockchain := ⟨[], [genesisBlock t]⟩

/-- `Blockchain.new_transaction`: appends the transaction dictionary to
`current_transactions` and returns `self.last_block['index'] + 1`
(`none` models the `IndexError` on an empty chain, which in Python would
be raised only after the append had already mutated the buffer). -/
def new_transaction (bc : Blockchain) (sender recipient : String)
    (amount : Int) : Option (Blockchain × Nat) :=
  let bc' : Blockchain :=
    { bc with current_transactions :=
        bc.current_transactions ++ [⟨sender, recipient, amount⟩] }
  (bc'.chain.getLast?).map (fun last => (bc', last.index + 1))

/-- `Blockchain.last_block`: `self.chain[-1]`. -/
def last_block (bc : Blockchain) : Option Block := bc.chain.getLast?

/-- `mine_block` (module level): returns `some (bc, none)` for the
`"No transactions to mine."` early return (state untouched), and
`some (bc', some b)` when a block was forged.  `rewardRecipient` is the
`uuid4()` hex string the environment supplies; `t` is the clock reading at
block construction.  `none` models only search-fuel exhaustion. -/
def mine_block (fuel : Nat) (bc : Blockchain) (rewardRecipient : String)
    (t : String) : Option (Blockchain × Option Block) :=
  if bc.current_transactions.isEmpty then some (bc, none)
  else
    (bc.chain.getLast?).bind fun last =>
      (proof_of_work fuel last).bind fun proof =>
        (new_transaction bc "0" rewardRecipient 1).bind fun p1 =>
          (new_block p1.1 t proof none).map fun p2 => (p2.1, some p2.2)

/-- Python's `f'{x}'` for the value stored in `current_hash`: a string
renders as itself, `None` renders as `"None"`. -/
def pyStr : Option String → String
  | none => "None"
  | some s => s

/-- The `while current_index < len(chain)` loop of `valid_chain`: `last` is
`last_block`, the argument list holds the blocks still to visit. -/
def validFrom (last : Block) : List Block → Bool
  | [] => true
  | b :: rest =>
    if b.previous_hash ≠ hash last then false
    else if !valid_proof last.proof b.proof (pyStr last.current_hash) then false
    else validFrom b rest

/-- `Blockchain.valid_chain`: `chain[0]` raises `IndexError` on an empty
chain (modelled as `none`); otherwise the pairwise walk. -/
def valid_chain : List Block → Option Bool
  | [] => none
  | b :: rest => some (validFrom b rest)

/-! ## Reachable ledger states

The states a `Blockchain` object can be in after construction followed by
any interleaving of `new_transaction` and `mine_block` calls, over all
clock readings, reward recipients and search fuels. -/

/-- Reachability by interleaved `new_transaction` / `mine_block` calls from
a freshly constructed ledger. -/
inductive Reachable : Blockchain → Prop where
  | startup (t : String) (bc : Blockchain) : init t = some bc → Reachable bc
  | submit (bc : Blockchain) (s r : String) (a : Int) (out : Blockchain × Nat) :
      Reachable bc → new_transaction bc s r a = some out → Reachable out.1
  | mine (fuel : Nat) (bc : Blockchain) (u t : String) (out : Blockchain × Option Block) :
      Reachable bc → mine_block fuel bc u t = some out → Reachable out.1

/-! ## Concrete fixtures

Concrete inputs on which the operations are evaluated.  Timestamp strings
are `json.dumps` renderings of floats the clock could have returned. -/

/-- The one-submit-then-mine scenario: construct the ledger at clock
reading `1700000007.0`, submit one transaction, and mine at clock reading
`1700000999.0` with a fixed reward recipient.  The proof-of-work search
succeeds at proof 22, well inside the fuel. -/
def run1 : Option (Blockchain × Option Block) :=
  (init "1700000007.0").bind fun bc =>
    (new_transaction bc "alice" "bob" 1).bind fun p =>
      mine_block 100 p.1 "deadbeefdeadbeefdeadbeefdeadbeef" "1700000999.0"

/-- A block whose hash is probed with `current_hash` unset versus set. -/
def probeBlock : Block := ⟨1, "0.0", [], 100, "1", none⟩

/-- A first block holding one transaction of amount `a`; its stored
`current_hash` is the string `"h202"`, chosen so that proof 0 satisfies the
difficulty predicate seeded with `(100, "h202")`. -/
def g9 (a : Int) : Block := ⟨1, "2.0", [⟨"s", "r", a⟩], 100, "1", some "h202"⟩

/-- A second block on top of a first block whose serialization hashes to
`ph`: its proof is 0, which the predicate seeded with `(100, "h202")`
accepts. -/
def b9 (ph : String) : Block := ⟨2, "3.0", [], 0, ph, some "x"⟩

/-- A concrete two-block chain the validator accepts. -/
def chain9 : List Block := [g9 7, b9 (hash (g9 7))]

/-- A ledger state with one block and an empty pending buffer. -/
def bc6 : Blockchain := ⟨[], [⟨1, "4.0", [], 100, "1", some "g"⟩]⟩

/-- A ledger state with one block, used to exercise `new_transaction`. -/
def bc8 : Blockchain := ⟨[], [⟨1, "6.0", [], 100, "1", some "g"⟩]⟩

/-- The state a ledger constructed at clock reading `5.0` is in. -/
def gState : Blockchain := genesisState "5.0"

/-! ## Proof helpers -/

/-- The two checks `valid_chain` runs on one adjacent pair. -/
def pairOK (x y : Block) : Bool :=
  (y.previous_hash == hash x) && valid_proof x.proof y.proof (pyStr x.current_hash)

/-- The SHA-256 digest of `msg` read as a function `Fin 32 → Fin 256`;
being a map into a finite type, it cannot be injective on an infinite
domain. -/
def digestFin (msg : List Nat) : Fin 32 → Fin 256 :=
  fun i => ⟨(sha256 msg).getD i.val 0 % 256, Nat.mod_lt _ (by norm_num)⟩

/-! ## General lemmas -/

/-- The constructor always succeeds, and builds exactly the genesis state:
`'1'` is truthy, so `chain[-1]` is never consulted. -/
theorem init_eq (t : String) : init t = some (genesisState t) := rfl

/-- What a `some` answer of the search loop means: the answer satisfies the
predicate, is at least the starting candidate, and no candidate from the
start up to it satisfies the predicate. -/
theorem searchFrom_spec :
    ∀ (fuel cand lp : Nat) (lh : String) (p : Nat),
      searchFrom fuel cand lp lh = some p →
      valid_proof lp p lh = true ∧ cand ≤ p ∧
        ∀ q, cand ≤ q → q < p → valid_proof lp q lh = false := by
  intro fuel
  induction fuel with
  | zero => intro cand lp lh p h; simp [searchFrom] at h
  | succ n ih =>
    intro cand lp lh p h
    by_cases hv : valid_proof lp cand lh = true
    · rw [searchFrom, if_pos hv] at h
      obtain rfl : cand = p := by injection h
      exact ⟨hv, Nat.le_refl _, fun q hq1 hq2 => absurd (Nat.lt_of_le_of_lt hq1 hq2)
        (Nat.lt_irrefl _)⟩
    · have hv' : valid_proof lp cand lh = false := by
        cases hb : valid_proof lp cand lh
        · rfl
        · exact absurd hb hv
      rw [searchFrom, if_neg (by simp [hv'])] at h
      obtain ⟨h1, h2, h3⟩ := ih (cand + 1) lp lh p h
      refine ⟨h1, Nat.le_trans (Nat.le_succ _) h2, ?_⟩
      intro q hq1 hq2
      rcases Nat.eq_or_lt_of_le hq1 with rfl | hlt
      · exact hv'
      · exact h3 q hlt hq2

/-- `new_transaction` only ever extends the pending buffer by the one
transaction; the chain is untouched. -/
theorem new_transaction_state (bc : Blockchain) (s r : String) (a : Int)
    (out : Blockchain × Nat) (h : new_transaction bc s r a = some out) :
    out.1 = ⟨bc.current_transactions ++ [⟨s, r, a⟩], bc.chain⟩ := by
  unfold new_transaction at h
  rcases hl : bc.chain.getLast? with _ | last <;> simp [hl] at h
  subst h
  rfl

/-- A successful `new_block` appends exactly the returned block, whose
index is one past the old length, and clears the pending buffer. -/
theorem new_block_some (bc : Blockchain) (t : String) (proof : Nat)
    (ph : Option String) (bc' : Blockchain) (b : Block)
    (h : new_block bc t proof ph = some (bc', b)) :
    bc' = ⟨[], bc.chain ++ [b]⟩ ∧ b.index = bc.chain.length + 1 := by
  unfold new_block at h
  rcases hr : resolvePrev bc ph with _ | p <;> rw [hr] at h
  · exact absurd h (by simp)
  · simp only [Option.some.injEq, Prod.mk.injEq] at h
    obtain ⟨h1, h2⟩ := h
    subst h2
    exact ⟨h1.symm, rfl⟩

/-- A successful `mine_block` either leaves the state alone (empty pending
buffer) or appends one block of index one past the old length and clears
the pending buffer. -/
theorem mine_block_chain (fuel : Nat) (bc : Blockchain) (u t : String)
    (out : Blockchain × Option Block) (h : mine_block fuel bc u t = some out) :
    out.1 = bc ∨
      ∃ b : Block, out.1 = ⟨[], bc.chain ++ [b]⟩ ∧ b.index = bc.chain.length + 1 := by
  unfold mine_block at h
  by_cases he : bc.current_transactions.isEmpty
  · rw [if_pos he] at h
    obtain rfl : (bc, (none : Option Block)) = out := by injection h
    left
    rfl
  · rw [if_neg he, Option.bind_eq_some] at h
    obtain ⟨last, h1, h⟩ := h
    rw [Option.bind_eq_some] at h
    obtain ⟨prf, h2, h⟩ := h
    rw [Option.bind_eq_some] at h
    obtain ⟨p1, h3, h⟩ := h
    rw [Option.map_eq_some'] at h
    obtain ⟨p2, h4, h5⟩ := h
    subst h5
    right
    obtain ⟨hb1, hb2⟩ := new_block_some p1.1 t prf none p2.1 p2.2 h4
    have hc : p1.1 = ⟨bc.current_transactions ++ [⟨"0", u, 1⟩], bc.chain⟩ :=
      new_transaction_state bc "0" u 1 p1 h3
    refine ⟨p2.2, ?_, ?_⟩
    · show p2.1 = _
      rw [hb1, hc]
    · rw [hb2, hc]

/-! ## The claims -/

/-- C3: for every integer `last_proof` and string `last_hash`, when the
proof-of-work loop (run with those seeds, from candidate 0, within any
fuel) returns a proof, feeding it back into the verification predicate
succeeds: `valid_proof last_proof p last_hash` is true. -/
theorem c3_pow_search_verifies (fuel lp : Nat) (lh : String) (p : Nat)
    (h : searchFrom fuel 0 lp lh = some p) : valid_proof lp p lh = true :=
  (searchFrom_spec fuel 0 lp lh p h).1

/-- Witness for C3 at the concrete seeds `(0, "w186")`: the search returns
proof 0 and the predicate accepts it. -/
theorem c3_pow_search_verifies_witness : valid_proof 0 0 "w186" = true :=
  c3_pow_search_verifies 1 0 "w186" 0 (by rfl)

/-- C4: whenever the proof-of-work loop returns a proof, that proof is the
smallest non-negative integer satisfying the difficulty predicate: it
satisfies `valid_proof`, and no non-negative integer strictly below it
does. -/
theorem c4_pow_search_minimal (fuel lp : Nat) (lh : String) (p : Nat)
    (h : searchFrom fuel 0 lp lh = some p) :
    valid_proof lp p lh = true ∧ ∀ q, q < p → valid_proof lp q lh = false := by
  obtain ⟨h1, _, h3⟩ := searchFrom_spec fuel 0 lp lh p h
  exact ⟨h1, fun q hq => h3 q (Nat.zero_le q) hq⟩

/-- Witness for C4 at the concrete seeds `(5, "v226")`: the search returns
proof 0, the predicate accepts it, and minimality below 0 is vacuous. -/
theorem c4_pow_search_minimal_witness : valid_proof 5 0 "v226" = true :=
  (c4_pow_search_minimal 3 5 "v226" 0 (by rfl)).1

/-- C5 counterexample: on the empty chain the validator does not return
`True` — `chain[0]` raises `IndexError` (modelled by `none`). -/
theorem c5_counterexample :
    valid_chain ([] : List Block) = none ∧ valid_chain ([] : List Block) ≠ some true :=
  ⟨rfl, by simp [valid_chain]⟩

/-- C5 amended: for every chain with exactly one block (fewer than 2, but
non-empty), the validator returns true without failing; the empty chain
instead raises `IndexError` at `chain[0]`. -/
theorem c5_validator_singleton (b : Block) : valid_chain [b] = some true := rfl

/-- C6: mining on a state whose pending-transaction buffer is empty is
rejected (the `"No transactions to mine."` early return) and the state —
in particular the chain, every block of it, and its length — is returned
unchanged, with no block mined. -/
theorem c6_empty_pending_rejected (fuel : Nat) (bc : Blockchain) (u t : String)
    (h : bc.current_transactions = []) : mine_block fuel bc u t = some (bc, none) := by
  unfold mine_block
  rw [h]
  rfl

/-- Witness for C6 at a concrete one-block state with empty buffer. -/
theorem c6_empty_pending_rejected_witness : mine_block 5 bc6 "u" "9.0" = some (bc6, none) :=
  c6_empty_pending_rejected 5 bc6 "u" "9.0" rfl

/-- C7: a freshly constructed ledger, at any clock reading `t`, has exactly
one block, of index 1, previous hash the sentinel `"1"`, proof 100, and no
transactions; the pending buffer is empty. -/
theorem c7_genesis_invariant (t : String) :
    init t = some (genesisState t) ∧
      (genesisState t).current_transactions = [] ∧
      (genesisState t).chain = [genesisBlock t] ∧
      (genesisBlock t).index = 1 ∧
      (genesisBlock t).previous_hash = "1" ∧
      (genesisBlock t).proof = 100 ∧
      (genesisBlock t).transactions = [] :=
  ⟨init_eq t, rfl, rfl, rfl, rfl, rfl, rfl⟩

/-- C8: on any state with a non-empty chain, `new_transaction` appends
exactly the submitted transaction to the pending buffer, leaves the chain
unchanged, and returns `last_block.index + 1`. -/
theorem c8_submit_frame (bc : Blockchain) (s r : String) (a : Int) (last : Block)
    (h : bc.chain.getLast? = some last) :
    new_transaction bc s r a =
      some (⟨bc.current_transactions ++ [⟨s, r, a⟩], bc.chain⟩, last.index + 1) := by
  unfold new_transaction
  simp [h]

/-- Witness for C8 at a concrete one-block state. -/
theorem c8_submit_frame_witness :
    new_transaction bc8 "alice" "bob" 3 =
      some (⟨[⟨"alice", "bob", 3⟩], bc8.chain⟩, 2) :=
  c8_submit_frame bc8 "alice" "bob" 3 ⟨1, "6.0", [], 100, "1", some "g"⟩ rfl

/-- C1 (code bug): the validator round-trip fails on a mined chain.  In the
concrete scenario `run1` (fresh ledger, one submitted transaction, one
successful `mine_block`), a block is mined (`isSome`) yet the validator
returns `False` on the ledger's own chain: the proof-of-work was searched
against `hash(last_block)` with the stored `current_hash` serialized into
the bytes, while `valid_chain` re-verifies the proof against the stored
`current_hash` field, which was computed with `current_hash = None` — two
different strings, so the proof check fails. -/
theorem c1_validator_roundtrip_fails :
    (run1.bind fun r => (valid_chain r.1.chain).map fun v => (r.2.isSome, v)) =
      some (true, false) := by rfl

/-- C2 (code bug): the serialized bytes digested by `Blockchain.hash` do
include the `current_hash` field: the very same block hashes differently
with `current_hash` unset versus set, so hashing is not insensitive to the
stored value and is not computed as if the field were absent. -/
theorem c2_hash_depends_on_current_hash :
    hash probeBlock ≠ hash { probeBlock with current_hash := some "00" } := by decide

/-- The cons step of the validator loop is exactly the pair check followed
by the rest of the walk. -/
theorem validFrom_cons (last b : Block) (rest : List Block) :
    validFrom last (b :: rest) = (pairOK last b && validFrom b rest) := by
  have hstep : validFrom last (b :: rest) =
      if b.previous_hash ≠ hash last then false
      else if !valid_proof last.proof b.proof (pyStr last.current_hash) then false
      else validFrom b rest := rfl
  rw [hstep]
  unfold pairOK
  by_cases h1 : b.previous_hash = hash last
  · cases h2 : valid_proof last.proof b.proof (pyStr last.current_hash) <;> simp [h1, h2]
  · simp [h1]

/-- A two-block chain is accepted exactly when its one pair check passes. -/
theorem valid_chain_two (x y : Block) : valid_chain [x, y] = some (pairOK x y) := by
  show some (validFrom x [y]) = some (pairOK x y)
  rw [validFrom_cons]
  show some (pairOK x y && true) = _
  rw [Bool.and_true]

/-- When the validator walk succeeds, every adjacent pair of the walked
chain passes the pair check. -/
theorem validFrom_pair :
    ∀ (bs : List Block) (last : Block) (k : Nat) (x y : Block),
      validFrom last bs = true → (last :: bs).get? k = some x →
      (last :: bs).get? (k + 1) = some y → pairOK x y = true := by
  intro bs
  induction bs with
  | nil =>
    intro last k x y _ _ hy
    rcases k with _ | k <;> simp at hy
  | cons b rest ih =>
    intro last k x y hv hx hy
    rw [validFrom_cons, Bool.and_eq_true] at hv
    rcases k with _ | k
    · obtain rfl : last = x := by simpa using hx
      obtain rfl : b = y := by simpa using hy
      exact hv.1
    · exact ih b k x y hv.2 (by simpa using hx) (by simpa using hy)

/-- A chain holding one adjacent pair that fails the pair check is
rejected by the validator (which cannot raise on it, the chain being
non-empty at position `k`). -/
theorem valid_chain_false (l : List Block) (k : Nat) (x y : Block)
    (hx : l.get? k = some x) (hy : l.get? (k + 1) = some y)
    (hp : pairOK x y = false) : valid_chain l = some false := by
  cases l with
  | nil => simp at hx
  | cons c0 rest =>
    show some (validFrom c0 rest) = some false
    cases hb : validFrom c0 rest
    · rfl
    · exact absurd (validFrom_pair rest c0 k x y hb hx hy) (by simp [hp])

/-- The digest always has 32 bytes. -/
theorem sha256_length (msg : List Nat) : (sha256 msg).length = 32 := by
  simp [sha256, digestBytes, wordBytes]

/-- Every digest byte is below 256. -/
theorem sha256_lt (msg : List Nat) : ∀ x ∈ sha256 msg, x < 256 := by
  intro x hx
  simp only [sha256, digestBytes, wordBytes, List.mem_append, List.mem_cons,
    List.not_mem_nil, or_false] at hx
  omega

/-- Two messages with the same digest-as-function have the same digest
list. -/
theorem sha256_eq_of_digestFin_eq (m1 m2 : List Nat)
    (h : digestFin m1 = digestFin m2) : sha256 m1 = sha256 m2 := by
  have hl1 : (sha256 m1).length = 32 := sha256_length m1
  have hl2 : (sha256 m2).length = 32 := sha256_length m2
  apply List.ext_get (by rw [hl1, hl2])
  intro i h1 h2
  have hfun := congrArg Fin.val (congrFun h ⟨i, by omega⟩)
  simp only [digestFin] at hfun
  rw [List.getD_eq_get _ _ h1, List.getD_eq_get _ _ h2,
    Nat.mod_eq_of_lt (sha256_lt m1 _ (List.get_mem _ _ _)),
    Nat.mod_eq_of_lt (sha256_lt m2 _ (List.get_mem _ _ _))] at hfun
  exact hfun

/-- Blocks whose canonical serializations have equal digests have equal
hashes. -/
theorem hash_congr_digest (b1 b2 : Block)
    (h : sha256 (strBytes (blockJson b1)) = sha256 (strBytes (blockJson b2))) :
    hash b1 = hash b2 := by
  unfold hash sha256hex bytesHex
  rw [h]

/-- C9 counterexample (non-constructive): the claim "mutating any single
field of any non-last block while keeping stored hashes makes the
validator reject" is false in full generality.  The hash has finitely many
values while amounts range over an infinite type, so two chains exist that
differ only in the `transactions` field (one amount) of their first (non-
last) block, with all stored hashes identical, such that the validator
accepts both. -/
theorem c9_counterexample :
    ∃ a1 a2 : Int, a1 ≠ a2 ∧
      valid_chain [g9 a1, b9 (hash (g9 a1))] = some true ∧
      valid_chain [g9 a2, b9 (hash (g9 a1))] = some true := by
  obtain ⟨a1, a2, hne, heq⟩ := Finite.exists_ne_map_eq_of_infinite
    (fun a : Int => digestFin (strBytes (blockJson (g9 a))))
  have hhash : hash (g9 a1) = hash (g9 a2) :=
    hash_congr_digest _ _ (sha256_eq_of_digestFin_eq _ _ heq)
  have hvp : valid_proof 100 0 "h202" = true := by rfl
  refine ⟨a1, a2, hne, ?_, ?_⟩
  · rw [valid_chain_two]
    have hpair : pairOK (g9 a1) (b9 (hash (g9 a1))) = true := by
      unfold pairOK
      rw [show (b9 (hash (g9 a1))).previous_hash = hash (g9 a1) from rfl,
        beq_self_eq_true, Bool.true_and]
      exact hvp
    rw [hpair]
  · rw [valid_chain_two]
    have hpair : pairOK (g9 a2) (b9 (hash (g9 a1))) = true := by
      unfold pairOK
      rw [show (b9 (hash (g9 a1))).previous_hash = hash (g9 a1) from rfl, hhash,
        beq_self_eq_true, Bool.true_and]
      exact hvp
    rw [hpair]

/-- C9 amended: given a chain the validator accepts, replacing a non-last
block by a block that keeps its stored `current_hash` but whose canonical
serialization hashes differently (any single-field mutation short of a
SHA-256 collision) makes the validator return false. -/
theorem c9_tamper_detected (chain : List Block) (k : Nat) (bk b' : Block)
    (hv : valid_chain chain = some true)
    (hk : chain.get? k = some bk)
    (hnl : k + 1 < chain.length)
    (hch : b'.current_hash = bk.current_hash)
    (hne : hash b' ≠ hash bk) :
    valid_chain (chain.set k b') = some false := by
  cases chain with
  | nil => simp at hk
  | cons c0 rest =>
    have hwalk : validFrom c0 rest = true := by
      have : some (validFrom c0 rest) = some true := hv
      injection this
    obtain ⟨y, hy⟩ : ∃ y, (c0 :: rest).get? (k + 1) = some y := by
      rw [List.get?_eq_get hnl]
      exact ⟨_, rfl⟩
    have hpair : pairOK bk y = true := validFrom_pair rest c0 k bk y hwalk hk hy
    have hyprev : y.previous_hash = hash bk := by
      rw [pairOK, Bool.and_eq_true] at hpair
      exact eq_of_beq hpair.1
    have hpair' : pairOK b' y = false := by
      unfold pairOK
      rw [hyprev]
      have : (hash bk == hash b') = false := beq_eq_false_iff_ne.mpr (Ne.symm hne)
      rw [this, Bool.false_and]
    refine valid_chain_false _ k b' y ?_ ?_ hpair'
    · have hklt : k < (c0 :: rest).length := by omega
      exact List.get?_set_eq_of_lt b' hklt
    · rw [List.get?_set_ne b' _ (by omega)]
      exact hy

/-- Witness for C9's amended theorem: in the concrete accepted two-block
chain, bumping the amount in the first block's one transaction (a single-
field mutation that does change the digest) makes the validator reject. -/
theorem c9_tamper_detected_witness :
    valid_chain (chain9.set 0 (g9 8)) = some false :=
  c9_tamper_detected chain9 0 (g9 7) (g9 8) (by rfl) (by rfl) (by decide)
    (by rfl) (by decide)

/-- C10: after construction and any interleaving of `new_transaction` and
`mine_block`, the chain is non-empty and block indices are contiguous from
1: the block at 0-based position `k` has `index = k + 1` (so in particular
`last_block` never fails). -/
theorem c10_chain_indexing (bc : Blockchain) (hr : Reachable bc) :
    bc.chain ≠ [] ∧
      ∀ (k : Nat) (hk : k < bc.chain.length), (bc.chain.get ⟨k, hk⟩).index = k + 1 := by
  induction hr with
  | startup t bc0 h =>
    rw [init_eq] at h
    obtain rfl : genesisState t = bc0 := by injection h
    refine ⟨by simp [genesisState], ?_⟩
    intro k hk
    have hk1 : k < 1 := by simpa [genesisState] using hk
    interval_cases k
    rfl
  | submit bc0 s r a out hre hnt ih =>
    rw [new_transaction_state bc0 s r a out hnt]
    exact ih
  | mine fuel bc0 u t out hre hm ih =>
    rcases mine_block_chain fuel bc0 u t out hm with h1 | ⟨b, h1, h2⟩
    · rw [h1]; exact ih
    · rw [h1]
      refine ⟨by simp, ?_⟩
      intro k hk
      show ((bc0.chain ++ [b]).get ⟨k, _⟩).index = k + 1
      by_cases hk2 : k < bc0.chain.length
      · rw [List.get_append k hk2]
        exact ih.2 k hk2
      · have hke : k = bc0.chain.length := by
          have : k < bc0.chain.length + 1 := by simpa using hk
          omega
        subst hke
        have hb : (bc0.chain ++ [b]).get ⟨bc0.chain.length, hk⟩ = b :=
          List.get_of_append rfl rfl
        rw [hb]
        omega

/-- Witness for C10: a ledger constructed at clock reading `5.0` is
reachable; its chain is non-empty and its one block has index 1. -/
theorem c10_chain_indexing_witness :
    gState.chain ≠ [] ∧ (gState.chain.get ⟨0, by simp [gState, genesisState]⟩).index = 0 + 1 :=
  ⟨(c10_chain_indexing gState (Reachable.startup "5.0" gState rfl)).1,
   (c10_chain_indexing gState (Reachable.startup "5.0" gState rfl)).2 0
     (by simp [gState, genesisState])⟩

end BC

example : BC.sha256hex (BC.strBytes "abc") =
    "ba7816bf8f01cfea414140de5dae2223b00361a396177a9cb410ff61f20015ad" := by rfl
